import Mathlib

/-!
Shallow embedding of `lutris/util/library_sync.py`.

The Python module performs a bidirectional sync between a local game database
and a remote library service.  We embed it as pure functions over explicit
state:

* the local database is a `List DBGame` (rows of the `games` table);
* the checkpoint setting `last_library_sync_at` is an `Option Nat`;
* the module-level guard `_IS_LOCAL_LIBRARY_SYNCING` is a `Bool`;
* the three `NotificationSource` events become booleans recording whether
  each fired during a call;
* every `game.save()` / `add_game(...)` call is recorded in an operation
  trace (`Op`), so that claims about "no update / no insert" are statements
  about the trace;
* HTTP is an oracle: whether credentials exist, whether the POST succeeds,
  and the JSON list the server returns are inputs.

Conventions of the embedding:

* Python `None` for a string column and the empty string are observationally
  identical in this module (every use is `x or ""` or truthiness), so string
  fields are plain `String` with `""` standing for NULL/absent.
* `lastplayed` / `installed_at` are epoch seconds (`x or 0`), modelled as
  `Nat` with `0` standing for NULL.
* `playtime` is a fractional-hours number, modelled as `ℚ`.
* Machine floats are modelled by `ℚ`; the `"%0.5f"` wire serialization of
  playtime is modelled by rounding to five decimal places (`format5`).
-/

/-- A row of the local `games` table, as returned by `get_games()`.
NULL strings are represented by `""`, NULL numbers by `0`. -/
structure DBGame where
  id : Nat
  name : String
  slug : String
  runner : String
  platform : String
  playtime : ℚ
  lastplayed : Nat
  installed : Nat
  installed_at : Nat
  service : String
  service_id : String
deriving DecidableEq, Repr

/-- One entry of the JSON list the server returns (`request.json`), with the
fields read by `sync_local_library`.  A JSON `null` string field is
represented by `""` (every Python use is `x or ""` or truthiness). -/
structure RemoteGame where
  name : String
  slug : String
  runner : String
  platform : String
  playtime : ℚ
  lastplayed : Nat
  service : String
  service_id : String
deriving DecidableEq, Repr

/-- The wire representation produced by `LibrarySyncer._db_game_to_api`. -/
structure ApiGame where
  name : String
  slug : String
  runner : String
  platform : String
  playtime : ℚ
  lastplayed : Nat
  service : String
  service_id : String
  categories : List String
deriving DecidableEq, Repr

/-- The identity key `(slug, runner or "", platform or "", service or "")`
built at lines 80–85 and 93–98 of the source. -/
abbrev GameKey := String × String × String × String

/-- Identity key of a database row. -/
def dbKey (g : DBGame) : GameKey := (g.slug, g.runner, g.platform, g.service)

/-- Identity key of an encoded entry (fields are already normalized). -/
def apiKey (g : ApiGame) : GameKey := (g.slug, g.runner, g.platform, g.service)

/-- Identity key of a remote entry. -/
def remoteKey (g : RemoteGame) : GameKey := (g.slug, g.runner, g.platform, g.service)

/-- The category lookup tables built in `LibrarySyncer.__init__`:
`categories` maps a category id to its name, `games_categories` maps a game
id to its category ids. -/
structure Syncer where
  categories : Nat → String
  games_categories : Nat → List Nat

/-- Model of the `"%0.5f"` fixed-point serialization of playtime: the value
rounded to five decimal places. -/
def format5 (q : ℚ) : ℚ := (⌊q * 100000 + 1 / 2⌋ : ℚ) / 100000

/-- `LibrarySyncer._db_game_to_api` (lines 149–161). -/
def db_game_to_api (s : Syncer) (db_game : DBGame) : ApiGame :=
  { name := db_game.name
    slug := db_game.slug
    runner := db_game.runner
    platform := db_game.platform
    playtime := format5 db_game.playtime
    lastplayed := db_game.lastplayed
    service := db_game.service
    service_id := db_game.service_id
    categories := (s.games_categories db_game.id).map s.categories }

/-- `LibrarySyncer._db_games_to_api` (lines 163–171).  The Python guard is
`if since and lastplayed < since and installed_at < since`, where `since` is
falsy when `None` or `0`. -/
def db_games_to_api (s : Syncer) : List DBGame → Option Nat → List ApiGame
  | [], _ => []
  | db_game :: rest, since =>
    let lastplayed := db_game.lastplayed
    let installed_at := db_game.installed_at
    let skip : Bool :=
      match since with
      | none => false
      | some v => v != 0 && lastplayed < v && installed_at < v
    if skip then db_games_to_api s rest since
    else db_game_to_api s db_game :: db_games_to_api s rest since

/-- The four structures built over the full local library at lines 75–90. -/
structure LibSets where
  library_keys : List GameKey
  duplicate_keys : List GameKey
  library_map : List (GameKey × ApiGame)
  library_slugs : List String

/-- Python `set.add`: insert unless already present. -/
def insertSet {α : Type} [DecidableEq α] (x : α) (s : List α) : List α :=
  if x ∈ s then s else x :: s

/-- Python `dict[k] = v`: bind `k` to `v`, replacing any previous binding. -/
def mapInsert (k : GameKey) (v : ApiGame) (m : List (GameKey × ApiGame)) :
    List (GameKey × ApiGame) :=
  (k, v) :: m.filter (fun p => p.1 != k)

/-- The empty accumulator for `build_sets`. -/
def emptySets : LibSets := ⟨[], [], [], []⟩

/-- The loop at lines 79–90: builds `library_keys`, `duplicate_keys`,
`library_map` and `library_slugs` from the encoded full local library.  The
key is added to `duplicate_keys` when it is already in `library_keys`, and
is then added to `library_keys` and the map in any case. -/
def build_sets : List ApiGame → LibSets → LibSets
  | [], acc => acc
  | game :: rest, acc =>
    let library_key := apiKey game
    build_sets rest
      { library_keys := insertSet library_key acc.library_keys
        duplicate_keys :=
          if library_key ∈ acc.library_keys then
            insertSet library_key acc.duplicate_keys
          else acc.duplicate_keys
        library_map := mapInsert library_key game acc.library_map
        library_slugs := insertSet game.slug acc.library_slugs }

/-- The condition dict built at lines 104–107 and applied by
`get_games_where`: `slug` always, plus each of `runner`, `platform`,
`service` when the remote value is truthy (non-empty). -/
def matches_conditions (remote_game : RemoteGame) (g : DBGame) : Bool :=
  g.slug == remote_game.slug
    && (remote_game.runner == "" || g.runner == remote_game.runner)
    && (remote_game.platform == "" || g.platform == remote_game.platform)
    && (remote_game.service == "" || g.service == remote_game.service)

/-- `get_games_where(**conditions)` at line 108, over the current database. -/
def get_games_where (db : List DBGame) (remote_game : RemoteGame) : List DBGame :=
  db.filter (matches_conditions remote_game)

/-- `Game(pga_game["id"])` at line 116: load the row with the given primary
key from the current database. -/
def gameById (db : List DBGame) (i : Nat) : Option DBGame :=
  db.find? (fun g => g.id == i)

/-- `game.save()` at line 125: write the mutated row back under its id. -/
def save_game (db : List DBGame) (game : DBGame) : List DBGame :=
  db.map (fun g => if g.id == game.id then game else g)

/-- The row created by the `add_game(...)` call at lines 131–141: fields come
verbatim from the remote entry, `installed=0`, and `installed_at` is not set
(NULL, i.e. `0`).  The id is the autoincremented primary key. -/
def add_game_record (id : Nat) (remote_game : RemoteGame) : DBGame :=
  { id := id
    name := remote_game.name
    slug := remote_game.slug
    runner := remote_game.runner
    platform := remote_game.platform
    playtime := remote_game.playtime
    lastplayed := remote_game.lastplayed
    installed := 0
    installed_at := 0
    service := remote_game.service
    service_id := remote_game.service_id }

/-- A local mutation performed by the merge loop: a `game.save()` or an
`add_game(...)`, tagged with the remote entry's identity key. -/
inductive Op where
  | update (key : GameKey) (id : Nat)
  | insert (key : GameKey) (slug : String) (id : Nat)
deriving DecidableEq, Repr

/-- The identity key of the remote entry that caused an operation. -/
def Op.key : Op → GameKey
  | .update k _ => k
  | .insert k _ _ => k

/-- State threaded through the merge loop: the live database, the next
autoincrement id, the `any_local_changes` flag, and the operation trace. -/
structure MergeState where
  db : List DBGame
  next_id : Nat
  any_local_changes : Bool
  ops : List Op
deriving Repr

/-- One iteration of the merge loop (lines 92–141) for a single remote
entry. -/
def process_remote (sets : LibSets) (st : MergeState) (remote_game : RemoteGame) :
    MergeState :=
  let remote_key := remoteKey remote_game
  if remote_key ∈ sets.duplicate_keys then st
  else if remote_key ∈ sets.library_map.map Prod.fst then
    match get_games_where st.db remote_game with
    | [] => st
    | [pga_game] =>
      match gameById st.db pga_game.id with
      | none => st
      | some game =>
        let gc1 : DBGame × Bool :=
          if game.playtime < remote_game.playtime then
            ({ game with playtime := remote_game.playtime }, true)
          else (game, false)
        let gc2 : DBGame × Bool :=
          if gc1.1.lastplayed < remote_game.lastplayed then
            ({ gc1.1 with lastplayed := remote_game.lastplayed }, true)
          else (gc1.1, gc1.2)
        if gc2.2 then
          { st with
            db := save_game st.db gc2.1
            any_local_changes := true
            ops := st.ops ++ [Op.update remote_key gc2.1.id] }
        else st
    | _ :: _ :: _ => st
  else
    if remote_game.slug ∈ sets.library_slugs then st
    else
      { db := st.db ++ [add_game_record st.next_id remote_game]
        next_id := st.next_id + 1
        any_local_changes := true
        ops := st.ops ++ [Op.insert remote_key remote_game.slug st.next_id] }

/-- The whole `for remote_game in request.json` loop. -/
def run_merge (sets : LibSets) (st : MergeState) (response : List RemoteGame) :
    MergeState :=
  response.foldl (process_remote sets) st

/-- Local state read and written by `sync_local_library`: the database, the
autoincrement counter, the `last_library_sync_at` setting, and the
`_IS_LOCAL_LIBRARY_SYNCING` guard. -/
structure SyncState where
  db : List DBGame
  next_id : Nat
  checkpoint : Option Nat
  syncing : Bool
deriving Repr

/-- The environment of one call: whether `read_api_key()` returns
credentials, whether the POST succeeds, the server's JSON response, and the
wall-clock time `time.time()` at the end of the pass. -/
structure SyncInput where
  has_credentials : Bool
  post_ok : Bool
  remote_response : List RemoteGame
  now : Nat
deriving Repr

/-- Everything observable about one call to `sync_local_library`: the final
local state, which events fired, the POST payload (none when no request was
made), and the trace of save/insert operations. -/
structure SyncOutcome where
  db : List DBGame
  next_id : Nat
  checkpoint : Option Nat
  syncing : Bool
  syncing_fired : Bool
  synced_fired : Bool
  updated_fired : Bool
  upload_payload : Option (List ApiGame)
  ops : List Op
deriving Repr

/-- `LibrarySyncer.sync_local_library` (lines 48–147).

Control flow of the source: guard early return (51–52); `since` from the
checkpoint unless `force` (54–57); both encodings of the local library
(58–60); request construction, silent return when credentials are missing
(62–64); `LOCAL_LIBRARY_SYNCING.fire()` (66); POST, aborting the pass on
`HTTPError` (70–74); the set/map construction (75–90); the merge loop
(92–141); checkpoint write (142); and the `finally` block (143–147) which
clears the guard, fires `LOCAL_LIBRARY_SYNCED`, and fires
`LOCAL_LIBRARY_UPDATED` when `any_local_changes`. -/
def sync_local_library (s : Syncer) (force : Bool) (inp : SyncInput)
    (st : SyncState) : SyncOutcome :=
  if st.syncing then
    ⟨st.db, st.next_id, st.checkpoint, st.syncing, false, false, false, none, []⟩
  else
    let since : Option Nat :=
      if !force && st.checkpoint.isSome then st.checkpoint else none
    let local_library := db_games_to_api s st.db none
    let local_library_updates := db_games_to_api s st.db since
    if !inp.has_credentials then
      ⟨st.db, st.next_id, st.checkpoint, st.syncing, false, false, false, none, []⟩
    else if !inp.post_ok then
      ⟨st.db, st.next_id, st.checkpoint, false, true, true, false,
        some local_library_updates, []⟩
    else
      let sets := build_sets local_library emptySets
      let m := run_merge sets ⟨st.db, st.next_id, false, []⟩ inp.remote_response
      ⟨m.db, m.next_id, some inp.now, false, true, true, m.any_local_changes,
        some local_library_updates, m.ops⟩

/-- Observable result of `delete_from_remote_library`: the (unchanged) local
state, the DELETE payload (none when no request was made), and the parsed
server response (none on missing credentials or transport error).  The
response type is opaque to the module, hence the parameter `α`. -/
structure DeleteOutcome (α : Type) where
  state : SyncState
  payload : Option (List ApiGame)
  result : Option α

/-- `LibrarySyncer.delete_from_remote_library` (lines 173–182). -/
def delete_from_remote_library {α : Type} (s : Syncer)
    (has_credentials del_ok : Bool) (resp : α) (games : List DBGame)
    (st : SyncState) : DeleteOutcome α :=
  if !has_credentials then ⟨st, none, none⟩
  else if !del_ok then ⟨st, some (db_games_to_api s games none), none⟩
  else ⟨st, some (db_games_to_api s games none), some resp⟩

/-! ## Basic lemmas about the set/map helpers -/

lemma mem_insertSet {α : Type} [DecidableEq α] {x y : α} {s : List α} :
    y ∈ insertSet x s ↔ y = x ∨ y ∈ s := by
  unfold insertSet
  split
  · constructor
    · exact Or.inr
    · rintro (rfl | h)
      · assumption
      · exact h
  · exact List.mem_cons

lemma mem_mapInsert_keys {k k' : GameKey} {v : ApiGame}
    {m : List (GameKey × ApiGame)} :
    k' ∈ (mapInsert k v m).map Prod.fst ↔ k' = k ∨ k' ∈ m.map Prod.fst := by
  unfold mapInsert
  constructor
  · intro h
    rcases List.mem_map.mp h with ⟨p, hp, rfl⟩
    rcases List.mem_cons.mp hp with rfl | hp'
    · exact Or.inl rfl
    · exact Or.inr (List.mem_map.mpr ⟨p, (List.mem_filter.mp hp').1, rfl⟩)
  · rintro (rfl | h)
    · exact List.mem_map.mpr ⟨(k', v), List.mem_cons_self _ _, rfl⟩
    · rcases List.mem_map.mp h with ⟨p, hp, rfl⟩
      by_cases hpk : p.1 = k
      · exact List.mem_map.mpr ⟨(k, v), List.mem_cons_self _ _, hpk.symm⟩
      · refine List.mem_map.mpr ⟨p, List.mem_cons_of_mem _ ?_, rfl⟩
        exact List.mem_filter.mpr ⟨hp, by simpa using hpk⟩

/-- The `1`-or-`0` contribution of the accumulator to a key's multiplicity. -/
def keyCnt (acc : LibSets) (k : GameKey) : Nat :=
  if k ∈ acc.library_keys then 1 else 0

lemma build_sets_keys (lib : List ApiGame) (acc : LibSets) (k : GameKey) :
    k ∈ (build_sets lib acc).library_keys ↔
      k ∈ acc.library_keys ∨ k ∈ lib.map apiKey := by
  induction lib generalizing acc with
  | nil => simp [build_sets]
  | cons g rest ih =>
    simp only [build_sets]
    rw [ih]
    simp only [mem_insertSet, List.map_cons, List.mem_cons]
    tauto

lemma build_sets_map_keys (lib : List ApiGame) (acc : LibSets) (k : GameKey) :
    k ∈ (build_sets lib acc).library_map.map Prod.fst ↔
      k ∈ acc.library_map.map Prod.fst ∨ k ∈ lib.map apiKey := by
  induction lib generalizing acc with
  | nil => simp [build_sets]
  | cons g rest ih =>
    simp only [build_sets]
    rw [ih]
    simp only [mem_mapInsert_keys, List.map_cons, List.mem_cons]
    tauto

lemma build_sets_slugs (lib : List ApiGame) (acc : LibSets) (sl : String) :
    sl ∈ (build_sets lib acc).library_slugs ↔
      sl ∈ acc.library_slugs ∨ sl ∈ lib.map ApiGame.slug := by
  induction lib generalizing acc with
  | nil => simp [build_sets]
  | cons g rest ih =>
    simp only [build_sets]
    rw [ih]
    simp only [mem_insertSet, List.map_cons, List.mem_cons]
    tauto

lemma build_sets_dups (lib : List ApiGame) (acc : LibSets) (k : GameKey) :
    k ∈ (build_sets lib acc).duplicate_keys ↔
      k ∈ acc.duplicate_keys ∨ 2 ≤ keyCnt acc k + (lib.map apiKey).count k := by
  induction lib generalizing acc with
  | nil =>
    simp only [build_sets, List.map_nil, List.count_nil, Nat.add_zero]
    constructor
    · exact Or.inl
    · rintro (h | h)
      · exact h
      · exfalso
        unfold keyCnt at h
        split at h <;> omega
  | cons g rest ih =>
    simp only [build_sets]
    rw [ih]
    by_cases hk : k = apiKey g
    · subst hk
      by_cases hmem : apiKey g ∈ acc.library_keys
      · simp only [keyCnt, hmem, if_pos, if_true, mem_insertSet, true_or, if_pos,
          List.map_cons, List.count_cons_self]
        exact iff_of_true trivial (Or.inr (by omega))
      · simp only [keyCnt, hmem, if_false, if_neg hmem, mem_insertSet, true_or, if_pos,
          List.map_cons, List.count_cons_self, if_true]
        exact or_congr_right (by omega)
    · have hcnt : (List.map apiKey (g :: rest)).count k = (List.map apiKey rest).count k := by
        simp [List.count_cons, hk]
      rw [hcnt]
      have hkeyCnt : ∀ d m sl, keyCnt ⟨insertSet (apiKey g) acc.library_keys, d, m, sl⟩ k = keyCnt acc k := by
        intro d m sl
        simp only [keyCnt, mem_insertSet]
        by_cases h : k ∈ acc.library_keys <;> simp [h, hk]
      rw [hkeyCnt]
      have hdups : ∀ (dd : List GameKey), k ∈ (if apiKey g ∈ acc.library_keys then insertSet (apiKey g) dd else dd) ↔ k ∈ dd := by
        intro dd
        split
        · rw [mem_insertSet]
          simp [hk]
        · exact Iff.rfl
      rw [hdups]

lemma build_sets_keys_empty (lib : List ApiGame) (k : GameKey) :
    k ∈ (build_sets lib emptySets).library_keys ↔ k ∈ lib.map apiKey := by
  rw [build_sets_keys]
  simp [emptySets]

lemma build_sets_map_keys_empty (lib : List ApiGame) (k : GameKey) :
    k ∈ (build_sets lib emptySets).library_map.map Prod.fst ↔ k ∈ lib.map apiKey := by
  rw [build_sets_map_keys]
  simp [emptySets]

lemma build_sets_slugs_empty (lib : List ApiGame) (sl : String) :
    sl ∈ (build_sets lib emptySets).library_slugs ↔ sl ∈ lib.map ApiGame.slug := by
  rw [build_sets_slugs]
  simp [emptySets]

lemma build_sets_dups_empty (lib : List ApiGame) (k : GameKey) :
    k ∈ (build_sets lib emptySets).duplicate_keys ↔ 2 ≤ (lib.map apiKey).count k := by
  rw [build_sets_dups]
  simp [emptySets, keyCnt]

lemma dups_subset_map_keys_empty (lib : List ApiGame) (k : GameKey)
    (h : k ∈ (build_sets lib emptySets).duplicate_keys) :
    k ∈ (build_sets lib emptySets).library_map.map Prod.fst := by
  rw [build_sets_dups_empty] at h
  rw [build_sets_map_keys_empty, ← List.count_pos_iff]
  omega

/-! ## Lemmas about row lookup and save -/

lemma gameById_eq_of_nodup {db : List DBGame} {pga : DBGame}
    (hnd : (db.map DBGame.id).Nodup) (hmem : pga ∈ db) :
    gameById db pga.id = some pga := by
  induction db with
  | nil => cases hmem
  | cons g rest ih =>
    rw [List.map_cons, List.nodup_cons] at hnd
    by_cases hg : g.id = pga.id
    · rcases List.mem_cons.mp hmem with rfl | hmem'
      · exact List.find?_cons_of_pos _ (by simp)
      · exact absurd (hg ▸ List.mem_map_of_mem DBGame.id hmem') hnd.1
    · rcases List.mem_cons.mp hmem with rfl | hmem'
      · exact absurd rfl hg
      · rw [gameById, List.find?_cons_of_neg _ (by simpa using hg)]
        exact ih hnd.2 hmem'

lemma gameById_save_game {db : List DBGame} {pga g' : DBGame}
    (hnd : (db.map DBGame.id).Nodup) (hmem : pga ∈ db) (hid : g'.id = pga.id) :
    gameById (save_game db g') pga.id = some g' := by
  induction db with
  | nil => cases hmem
  | cons g rest ih =>
    rw [List.map_cons, List.nodup_cons] at hnd
    rw [save_game, List.map_cons]
    by_cases hg : g.id = pga.id
    · have : (if g.id == g'.id then g' else g) = g' := by
        simp [hid, hg]
      rw [this]
      exact List.find?_cons_of_pos _ (by simp [hid])
    · have : (if g.id == g'.id then g' else g) = g := by
        simp [hid, hg]
      rw [this]
      rw [gameById, List.find?_cons_of_neg _ (by simpa using hg)]
      rcases List.mem_cons.mp hmem with rfl | hmem'
      · exact absurd rfl hg
      · exact ih hnd.2 hmem'

lemma mem_save_game {db : List DBGame} {pga g' : DBGame}
    (hmem : pga ∈ db) (hid : g'.id = pga.id) : g' ∈ save_game db g' := by
  have h2 : (fun g => if g.id == g'.id then g' else g) pga = g' := by
    simp [hid]
  have h3 := List.mem_map_of_mem (fun g => if g.id == g'.id then g' else g) hmem
  rw [h2] at h3
  exact h3

/-! ## Concrete data for witnesses and counterexamples -/

/-- A concrete syncer whose category tables are empty. -/
def testSyncer : Syncer := ⟨fun _ => "", fun _ => []⟩

/-- A concrete local row. -/
def c10Local : DBGame := ⟨1, "Alpha", "alpha", "", "", 0, 0, 1, 10, "", ""⟩

/-- A remote entry with a slug absent locally, runner `wine`. -/
def c10Remote1 : RemoteGame := ⟨"Beta", "beta", "wine", "", 3, 50, "", ""⟩

/-- A remote entry with the same slug but a different identity key. -/
def c10Remote2 : RemoteGame := ⟨"Beta", "beta", "dosbox", "", 4, 60, "", ""⟩

/-- The outcome of one full pass over `[c10Remote1, c10Remote2]`. -/
def c10Outcome : SyncOutcome :=
  sync_local_library testSyncer false ⟨true, true, [c10Remote1, c10Remote2], 99⟩
    ⟨[c10Local], 2, none, false⟩

/-! ## Claim theorems -/

/-- C3: for every list of records and timestamp `T`, the batch encoder with
`since = T` returns exactly the encodings of the records for which NOT
(`lastplayed < T` AND `installed_at < T`), in input order; with `since`
absent every record is included. -/
theorem C3_encode_batch_filter (s : Syncer) (records : List DBGame) (T : Nat) :
    db_games_to_api s records (some T) =
      (records.filter
        (fun g => !(decide (g.lastplayed < T) && decide (g.installed_at < T)))).map
        (db_game_to_api s) ∧
    db_games_to_api s records none = records.map (db_game_to_api s) := by
  constructor
  · induction records with
    | nil => rfl
    | cons g rest ih =>
      simp only [db_games_to_api, List.filter_cons]
      by_cases hT : T = 0
      · subst hT
        simp [ih]
      · by_cases h1 : g.lastplayed < T <;> by_cases h2 : g.installed_at < T <;>
          simp [hT, h1, h2, ih]
  · induction records with
    | nil => rfl
    | cons g rest ih => simp [db_games_to_api, ih]

/-- C5 (amended): the "sync finished" event fires if and only if the
"sync started" event fired; the guard early-return and the
missing-credentials early-return fire neither event, every later exit path
fires both. -/
theorem C5_synced_fires_iff_started (s : Syncer) (force : Bool) (inp : SyncInput)
    (st : SyncState) :
    (sync_local_library s force inp st).synced_fired =
      (sync_local_library s force inp st).syncing_fired := by
  by_cases h1 : st.syncing <;> by_cases h2 : inp.has_credentials <;>
    by_cases h3 : inp.post_ok <;> simp [sync_local_library, h1, h2, h3]

/-- C5 counterexample: on the missing-credentials early abort (an exit path
of `sync_local_library`), the "sync finished" event does not fire, refuting
the claim that it fires on every exit path. -/
theorem C5_counterexample :
    (sync_local_library testSyncer false ⟨false, true, [], 7⟩
      ⟨[], 0, none, false⟩).synced_fired = false := by
  rfl

/-- C6: if the upload POST raises a transport error, the pass aborts with
the checkpoint unchanged, no record updated or inserted, "sync finished"
fires, and "data updated" does not fire. -/
theorem C6_upload_transport_error (s : Syncer) (force : Bool) (inp : SyncInput)
    (st : SyncState) (hg : st.syncing = false) (hc : inp.has_credentials = true)
    (hp : inp.post_ok = false) :
    (sync_local_library s force inp st).checkpoint = st.checkpoint ∧
    (sync_local_library s force inp st).db = st.db ∧
    (sync_local_library s force inp st).ops = [] ∧
    (sync_local_library s force inp st).synced_fired = true ∧
    (sync_local_library s force inp st).updated_fired = false := by
  simp [sync_local_library, hg, hc, hp]

/-- Witness for C6 at a concrete input. -/
theorem C6_upload_transport_error_witness :
    ((⟨[c10Local], 2, some 5, false⟩ : SyncState).syncing = false ∧
      (⟨true, false, [c10Remote1], 9⟩ : SyncInput).has_credentials = true ∧
      (⟨true, false, [c10Remote1], 9⟩ : SyncInput).post_ok = false) ∧
    (sync_local_library testSyncer false ⟨true, false, [c10Remote1], 9⟩
        ⟨[c10Local], 2, some 5, false⟩).checkpoint = some 5 ∧
    (sync_local_library testSyncer false ⟨true, false, [c10Remote1], 9⟩
        ⟨[c10Local], 2, some 5, false⟩).db = [c10Local] ∧
    (sync_local_library testSyncer false ⟨true, false, [c10Remote1], 9⟩
        ⟨[c10Local], 2, some 5, false⟩).ops = [] ∧
    (sync_local_library testSyncer false ⟨true, false, [c10Remote1], 9⟩
        ⟨[c10Local], 2, some 5, false⟩).synced_fired = true ∧
    (sync_local_library testSyncer false ⟨true, false, [c10Remote1], 9⟩
        ⟨[c10Local], 2, some 5, false⟩).updated_fired = false :=
  ⟨⟨rfl, rfl, rfl⟩,
    C6_upload_transport_error testSyncer false ⟨true, false, [c10Remote1], 9⟩
      ⟨[c10Local], 2, some 5, false⟩ rfl rfl rfl⟩

/-- C8: when the in-progress guard is set, `sync_local_library` is a no-op:
no request, no events, no state change, no operations. -/
theorem C8_guard_noop (s : Syncer) (force : Bool) (inp : SyncInput)
    (st : SyncState) (hg : st.syncing = true) :
    (sync_local_library s force inp st).db = st.db ∧
    (sync_local_library s force inp st).next_id = st.next_id ∧
    (sync_local_library s force inp st).checkpoint = st.checkpoint ∧
    (sync_local_library s force inp st).syncing = st.syncing ∧
    (sync_local_library s force inp st).syncing_fired = false ∧
    (sync_local_library s force inp st).synced_fired = false ∧
    (sync_local_library s force inp st).updated_fired = false ∧
    (sync_local_library s force inp st).upload_payload = none ∧
    (sync_local_library s force inp st).ops = [] := by
  simp [sync_local_library, hg]

/-- Witness for C8 at a concrete input. -/
theorem C8_guard_noop_witness :
    ((⟨[c10Local], 2, some 5, true⟩ : SyncState).syncing = true) ∧
    (sync_local_library testSyncer false ⟨true, true, [c10Remote1], 9⟩
        ⟨[c10Local], 2, some 5, true⟩).db = [c10Local] ∧
    (sync_local_library testSyncer false ⟨true, true, [c10Remote1], 9⟩
        ⟨[c10Local], 2, some 5, true⟩).upload_payload = none ∧
    (sync_local_library testSyncer false ⟨true, true, [c10Remote1], 9⟩
        ⟨[c10Local], 2, some 5, true⟩).ops = [] :=
  ⟨rfl,
    (C8_guard_noop testSyncer false ⟨true, true, [c10Remote1], 9⟩
        ⟨[c10Local], 2, some 5, true⟩ rfl).1,
    (C8_guard_noop testSyncer false ⟨true, true, [c10Remote1], 9⟩
        ⟨[c10Local], 2, some 5, true⟩ rfl).2.2.2.2.2.2.2.1,
    (C8_guard_noop testSyncer false ⟨true, true, [c10Remote1], 9⟩
        ⟨[c10Local], 2, some 5, true⟩ rfl).2.2.2.2.2.2.2.2⟩

/-- C9: `delete_from_remote_library` sends the unfiltered encoding of the
given records, returns the parsed response on success and no result on
transport error or missing credentials, and never mutates local state. -/
theorem C9_delete_remote (α : Type) (s : Syncer) (creds del_ok : Bool)
    (resp : α) (games : List DBGame) (st : SyncState) :
    (delete_from_remote_library s creds del_ok resp games st).state = st ∧
    (delete_from_remote_library s creds del_ok resp games st).payload =
      (if creds then some (db_games_to_api s games none) else none) ∧
    (delete_from_remote_library s creds del_ok resp games st).result =
      (if creds && del_ok then some resp else none) := by
  by_cases h1 : creds <;> by_cases h2 : del_ok <;>
    simp [delete_from_remote_library, h1, h2]

/-- C10: the slug set used for new-record dedup is a snapshot: a response
with two entries of the same (locally absent) slug but different identity
keys gets both inserted in one pass, yielding two local rows with one
slug. -/
theorem C10_slug_snapshot :
    (c10Outcome.db.filter (fun g => g.slug == "beta")).length = 2 ∧
    c10Outcome.ops = [Op.insert ("beta", "wine", "", "") "beta" 2,
      Op.insert ("beta", "dosbox", "", "") "beta" 3] := by
  constructor <;> rfl

/-- C7: a remote entry whose identity key is not in the local map is never
inserted when its slug already exists locally; otherwise a new record is
inserted with playtime and lastplayed verbatim from the remote entry,
not-installed, and the pass is marked as changed. -/
theorem C7_new_entry (lib : List ApiGame) (st : MergeState) (r : RemoteGame)
    (hmap : remoteKey r ∉ (build_sets lib emptySets).library_map.map Prod.fst) :
    (r.slug ∈ (build_sets lib emptySets).library_slugs →
      process_remote (build_sets lib emptySets) st r = st) ∧
    (r.slug ∉ (build_sets lib emptySets).library_slugs →
      process_remote (build_sets lib emptySets) st r =
        { db := st.db ++ [add_game_record st.next_id r]
          next_id := st.next_id + 1
          any_local_changes := true
          ops := st.ops ++ [Op.insert (remoteKey r) r.slug st.next_id] }) := by
  have hdup : remoteKey r ∉ (build_sets lib emptySets).duplicate_keys :=
    fun h => hmap (dups_subset_map_keys_empty lib _ h)
  constructor
  · intro hsl
    simp only [process_remote]
    rw [if_neg hdup, if_neg hmap, if_pos hsl]
  · intro hsl
    simp only [process_remote]
    rw [if_neg hdup, if_neg hmap, if_neg hsl]

/-- Witness for C7 at a concrete input: an empty local library, so the
remote entry is inserted. -/
theorem C7_new_entry_witness :
    remoteKey c10Remote1 ∉ (build_sets [] emptySets).library_map.map Prod.fst ∧
    process_remote (build_sets [] emptySets) ⟨[], 0, false, []⟩ c10Remote1 =
      { db := [] ++ [add_game_record 0 c10Remote1]
        next_id := 0 + 1
        any_local_changes := true
        ops := [] ++ [Op.insert (remoteKey c10Remote1) c10Remote1.slug 0] } :=
  ⟨by decide,
    (C7_new_entry [] ⟨[], 0, false, []⟩ c10Remote1 (by decide)).2 (by decide)⟩

/-- C1: for a remote entry whose key is in the local map, is not a
duplicate, and whose non-empty-component re-query returns exactly one local
record, the merge leaves that record with
`playtime = max(local, remote)` and `lastplayed = max(local, remote)`
(fields taken independently), and persists it (recording an update and
marking the pass changed) iff at least one remote value is strictly
greater.  `hnd` is the database primary-key invariant. -/
theorem C1_max_wins_merge (sets : LibSets) (st : MergeState) (r : RemoteGame)
    (pga : DBGame)
    (hnd : (st.db.map DBGame.id).Nodup)
    (hmap : remoteKey r ∈ sets.library_map.map Prod.fst)
    (hdup : remoteKey r ∉ sets.duplicate_keys)
    (hq : get_games_where st.db r = [pga]) :
    gameById (process_remote sets st r).db pga.id =
      some { pga with playtime := max pga.playtime r.playtime
                      lastplayed := max pga.lastplayed r.lastplayed } ∧
    ((pga.playtime < r.playtime ∨ pga.lastplayed < r.lastplayed) →
      (process_remote sets st r).any_local_changes = true ∧
      (process_remote sets st r).ops = st.ops ++ [Op.update (remoteKey r) pga.id]) ∧
    (¬(pga.playtime < r.playtime ∨ pga.lastplayed < r.lastplayed) →
      process_remote sets st r = st) := by
  have hpga_mem : pga ∈ st.db := by
    have h0 : pga ∈ get_games_where st.db r := by
      rw [hq]; exact List.mem_singleton_self _
    exact (List.mem_filter.mp h0).1
  have hgid : gameById st.db pga.id = some pga := gameById_eq_of_nodup hnd hpga_mem
  by_cases hp : pga.playtime < r.playtime
  · by_cases hl : pga.lastplayed < r.lastplayed
    · simp only [process_remote, if_neg hdup, if_pos hmap, hq, hgid, if_pos hp, if_pos hl,
        max_eq_right hp.le, max_eq_right hl.le, if_true]
      exact ⟨gameById_save_game hnd hpga_mem rfl, fun _ => ⟨trivial, trivial⟩,
        fun h => absurd (Or.inl hp) h⟩
    · simp only [process_remote, if_neg hdup, if_pos hmap, hq, hgid, if_pos hp, if_neg hl,
        max_eq_right hp.le, max_eq_left (not_lt.mp hl), if_true]
      exact ⟨gameById_save_game hnd hpga_mem rfl, fun _ => ⟨trivial, trivial⟩,
        fun h => absurd (Or.inl hp) h⟩
  · by_cases hl : pga.lastplayed < r.lastplayed
    · simp only [process_remote, if_neg hdup, if_pos hmap, hq, hgid, if_neg hp, if_pos hl,
        max_eq_left (not_lt.mp hp), max_eq_right hl.le, if_true]
      exact ⟨gameById_save_game hnd hpga_mem rfl, fun _ => ⟨trivial, trivial⟩,
        fun h => absurd (Or.inr hl) h⟩
    · simp only [process_remote, if_neg hdup, if_pos hmap, hq, hgid, if_neg hp, if_neg hl,
        max_eq_left (not_lt.mp hp), max_eq_left (not_lt.mp hl), Bool.false_eq_true, if_false]
      refine ⟨trivial, fun h => ?_, fun _ => trivial⟩
      rcases h with h | h
      · exact absurd h hp
      · exact absurd h hl

/-- Concrete local row for the C1 witness (spec §8 scenario). -/
def c1Local : DBGame := ⟨1, "Foo", "foo", "wine", "", 2, 100, 1, 10, "", ""⟩

/-- Concrete remote entry for the C1 witness: higher playtime, lower
lastplayed. -/
def c1Remote : RemoteGame := ⟨"Foo", "foo", "wine", "", 5, 50, "", ""⟩

/-- Library sets over the one-row local library. -/
def c1Sets : LibSets := build_sets [db_game_to_api testSyncer c1Local] emptySets

/-- Merge-loop state over the one-row database. -/
def c1State : MergeState := ⟨[c1Local], 2, false, []⟩

/-- Witness for C1 at a concrete input: playtime advances to 5, lastplayed
stays 100, and the update is persisted. -/
theorem C1_max_wins_merge_witness :
    get_games_where c1State.db c1Remote = [c1Local] ∧
    gameById (process_remote c1Sets c1State c1Remote).db c1Local.id =
      some { c1Local with playtime := max c1Local.playtime c1Remote.playtime
                          lastplayed := max c1Local.lastplayed c1Remote.lastplayed } ∧
    (process_remote c1Sets c1State c1Remote).any_local_changes = true ∧
    (process_remote c1Sets c1State c1Remote).ops =
      c1State.ops ++ [Op.update (remoteKey c1Remote) c1Local.id] := by
  have h := C1_max_wins_merge c1Sets c1State c1Remote c1Local (by decide) (by decide)
    (by decide) (by decide)
  have h2 := h.2.1 (Or.inl (by decide))
  exact ⟨by decide, h.1, h2.1, h2.2⟩

/-- Any operation recorded by one merge iteration either was already in the
trace or carries the remote entry's key, which is then not a duplicate. -/
lemma process_remote_ops_sub (sets : LibSets) (st : MergeState) (r : RemoteGame) :
    ∀ op ∈ (process_remote sets st r).ops,
      op ∈ st.ops ∨ (Op.key op = remoteKey r ∧ remoteKey r ∉ sets.duplicate_keys) := by
  intro op hop
  by_cases hd : remoteKey r ∈ sets.duplicate_keys
  · simp only [process_remote, if_pos hd] at hop
    exact Or.inl hop
  · by_cases hm : remoteKey r ∈ sets.library_map.map Prod.fst
    · rcases hq : get_games_where st.db r with _ | ⟨pga, rest⟩
      · simp only [process_remote, if_neg hd, if_pos hm, hq] at hop
        exact Or.inl hop
      · rcases rest with _ | ⟨g2, rest2⟩
        · rcases hg : gameById st.db pga.id with _ | game
          · simp only [process_remote, if_neg hd, if_pos hm, hq, hg] at hop
            exact Or.inl hop
          · by_cases hp : game.playtime < r.playtime
            · by_cases hl : game.lastplayed < r.lastplayed
              · simp only [process_remote, if_neg hd, if_pos hm, hq, hg, if_pos hp,
                  if_pos hl, if_true, List.mem_append, List.mem_singleton] at hop
                rcases hop with hop | hop
                · exact Or.inl hop
                · subst hop
                  exact Or.inr ⟨rfl, hd⟩
              · simp only [process_remote, if_neg hd, if_pos hm, hq, hg, if_pos hp,
                  if_neg hl, if_true, List.mem_append, List.mem_singleton] at hop
                rcases hop with hop | hop
                · exact Or.inl hop
                · subst hop
                  exact Or.inr ⟨rfl, hd⟩
            · by_cases hl : game.lastplayed < r.lastplayed
              · simp only [process_remote, if_neg hd, if_pos hm, hq, hg, if_neg hp,
                  if_pos hl, if_true, List.mem_append, List.mem_singleton] at hop
                rcases hop with hop | hop
                · exact Or.inl hop
                · subst hop
                  exact Or.inr ⟨rfl, hd⟩
              · simp only [process_remote, if_neg hd, if_pos hm, hq, hg, if_neg hp,
                  if_neg hl, Bool.false_eq_true, if_false] at hop
                exact Or.inl hop
        · simp only [process_remote, if_neg hd, if_pos hm, hq] at hop
          exact Or.inl hop
    · by_cases hs : r.slug ∈ sets.library_slugs
      · simp only [process_remote, if_neg hd, if_neg hm, if_pos hs] at hop
        exact Or.inl hop
      · simp only [process_remote, if_neg hd, if_neg hm, if_neg hs] at hop
        simp only [List.mem_append, List.mem_singleton] at hop
        rcases hop with hop | hop
        · exact Or.inl hop
        · subst hop
          exact Or.inr ⟨rfl, hd⟩

/-- Every operation in the trace of a full merge loop either predates the
loop or carries a key that is not a duplicate key. -/
lemma run_merge_ops_not_dup (sets : LibSets) :
    ∀ (response : List RemoteGame) (st : MergeState),
      ∀ op ∈ (run_merge sets st response).ops,
        op ∈ st.ops ∨ Op.key op ∉ sets.duplicate_keys
  | [], st => by
    intro op hop
    exact Or.inl hop
  | r :: rest, st => by
    intro op hop
    have hstep : run_merge sets st (r :: rest) =
        run_merge sets (process_remote sets st r) rest := rfl
    rw [hstep] at hop
    rcases run_merge_ops_not_dup sets rest (process_remote sets st r) op hop with h | h
    · rcases process_remote_ops_sub sets st r op h with h' | h'
      · exact Or.inl h'
      · rw [h'.1]
        exact Or.inr h'.2
    · exact Or.inr h

/-- C2: if an identity key occurs more than once in the full local library,
no operation (update or insert) performed during the pass carries that key:
every remote entry with the key is skipped. -/
theorem C2_duplicate_safety (s : Syncer) (force : Bool) (inp : SyncInput)
    (st : SyncState) (k : GameKey)
    (hdup : 2 ≤ ((db_games_to_api s st.db none).map apiKey).count k) :
    ∀ op ∈ (sync_local_library s force inp st).ops, Op.key op ≠ k := by
  intro op hop
  by_cases h1 : st.syncing
  · simp [sync_local_library, h1] at hop
  · by_cases h2 : inp.has_credentials
    · by_cases h3 : inp.post_ok
      · simp only [sync_local_library, if_neg h1, h2, h3, Bool.not_true,
          Bool.false_eq_true, if_false] at hop
        rcases run_merge_ops_not_dup _ _ _ op hop with h | h
        · simp at h
        · intro hk
          subst hk
          exact h ((build_sets_dups_empty _ _).mpr hdup)
      · simp [sync_local_library, h1, h2, h3] at hop
    · simp [sync_local_library, h1, h2] at hop

/-- A local database with two rows sharing the identity key
`("foo", "wine", "", "")`. -/
def c2Db : List DBGame :=
  [⟨1, "Foo", "foo", "wine", "", 2, 100, 1, 10, "", ""⟩,
   ⟨2, "Foo2", "foo", "wine", "", 3, 200, 1, 20, "", ""⟩]

/-- Witness for C2 at a concrete input: the duplicated key is never the key
of any performed operation. -/
theorem C2_duplicate_safety_witness :
    2 ≤ ((db_games_to_api testSyncer c2Db none).map apiKey).count
      ("foo", "wine", "", "") ∧
    ∀ op ∈ (sync_local_library testSyncer false
        ⟨true, true, [⟨"Foo", "foo", "wine", "", 9, 999, "", ""⟩], 50⟩
        ⟨c2Db, 3, none, false⟩).ops, Op.key op ≠ ("foo", "wine", "", "") :=
  ⟨by decide, C2_duplicate_safety testSyncer false _ _ _ (by decide)⟩

/-! ## Evolution of the database during a pass (for idempotence) -/

/-- How one row can change during a merge pass: identity and descriptive
fields are untouched, `playtime` and `lastplayed` never decrease. -/
structure FieldEvol (g g' : DBGame) : Prop where
  id_eq : g'.id = g.id
  name_eq : g'.name = g.name
  slug_eq : g'.slug = g.slug
  runner_eq : g'.runner = g.runner
  platform_eq : g'.platform = g.platform
  service_eq : g'.service = g.service
  service_id_eq : g'.service_id = g.service_id
  installed_eq : g'.installed = g.installed
  installed_at_eq : g'.installed_at = g.installed_at
  playtime_le : g.playtime ≤ g'.playtime
  lastplayed_le : g.lastplayed ≤ g'.lastplayed

lemma FieldEvol.refl (g : DBGame) : FieldEvol g g :=
  { id_eq := rfl, name_eq := rfl, slug_eq := rfl, runner_eq := rfl
    platform_eq := rfl, service_eq := rfl, service_id_eq := rfl
    installed_eq := rfl, installed_at_eq := rfl
    playtime_le := le_refl _, lastplayed_le := le_refl _ }

lemma FieldEvol.trans {a b c : DBGame} (h1 : FieldEvol a b) (h2 : FieldEvol b c) :
    FieldEvol a c :=
  { id_eq := h2.id_eq.trans h1.id_eq, name_eq := h2.name_eq.trans h1.name_eq
    slug_eq := h2.slug_eq.trans h1.slug_eq
    runner_eq := h2.runner_eq.trans h1.runner_eq
    platform_eq := h2.platform_eq.trans h1.platform_eq
    service_eq := h2.service_eq.trans h1.service_eq
    service_id_eq := h2.service_id_eq.trans h1.service_id_eq
    installed_eq := h2.installed_eq.trans h1.installed_eq
    installed_at_eq := h2.installed_at_eq.trans h1.installed_at_eq
    playtime_le := le_trans h1.playtime_le h2.playtime_le
    lastplayed_le := le_trans h1.lastplayed_le h2.lastplayed_le }

lemma FieldEvol.key_eq {g g' : DBGame} (h : FieldEvol g g') : dbKey g' = dbKey g := by
  unfold dbKey
  rw [h.slug_eq, h.runner_eq, h.platform_eq, h.service_eq]

/-- A database evolves into another when every original row is still present
at its position, field-evolved; rows may be appended at the end. -/
def Evolves : List DBGame → List DBGame → Prop
  | [], _ => True
  | _ :: _, [] => False
  | g :: t, g' :: t' => FieldEvol g g' ∧ Evolves t t'

lemma evolves_refl : ∀ db : List DBGame, Evolves db db
  | [] => trivial
  | g :: t => ⟨FieldEvol.refl g, evolves_refl t⟩

lemma evolves_trans {a : List DBGame} :
    ∀ {b c : List DBGame}, Evolves a b → Evolves b c → Evolves a c := by
  induction a with
  | nil => intro b c _ _; trivial
  | cons x t ih =>
    intro b c h1 h2
    cases b with
    | nil => exact h1.elim
    | cons y u =>
      cases c with
      | nil => exact h2.elim
      | cons z v =>
        obtain ⟨f1, e1⟩ := h1
        obtain ⟨f2, e2⟩ := h2
        exact ⟨f1.trans f2, ih e1 e2⟩

lemma evolves_append_right {a : List DBGame} (xs : List DBGame) :
    ∀ {b : List DBGame}, Evolves a b → Evolves a (b ++ xs) := by
  induction a with
  | nil => intro b _; trivial
  | cons x t ih =>
    intro b h
    cases b with
    | nil => exact h.elim
    | cons y u =>
      obtain ⟨f1, e1⟩ := h
      exact ⟨f1, ih e1⟩

lemma evolves_map {db : List DBGame} {f : DBGame → DBGame}
    (h : ∀ g ∈ db, FieldEvol g (f g)) : Evolves db (db.map f) := by
  induction db with
  | nil => trivial
  | cons g t ih =>
    exact ⟨h g (List.mem_cons_self _ _), ih fun x hx => h x (List.mem_cons_of_mem _ hx)⟩

lemma evolves_mem {a b : List DBGame} {g : DBGame} (h : Evolves a b) (hg : g ∈ a) :
    ∃ g' ∈ b, FieldEvol g g' := by
  induction a generalizing b with
  | nil => cases hg
  | cons x t ih =>
    cases b with
    | nil => exact h.elim
    | cons x' t' =>
      obtain ⟨hfe, ht⟩ := h
      rcases List.mem_cons.mp hg with rfl | hg'
      · exact ⟨x', List.mem_cons_self _ _, hfe⟩
      · obtain ⟨g', hg'', hfe'⟩ := ih ht hg'
        exact ⟨g', List.mem_cons_of_mem _ hg'', hfe'⟩

lemma evolves_count_key {a : List DBGame} (k : GameKey) :
    ∀ {b : List DBGame}, Evolves a b →
      (a.map dbKey).count k ≤ (b.map dbKey).count k := by
  induction a with
  | nil => intro b _; simp
  | cons g t ih =>
    intro b h
    cases b with
    | nil => exact h.elim
    | cons g' t' =>
      obtain ⟨hfe, ht⟩ := h
      rw [List.map_cons, List.map_cons, List.count_cons, List.count_cons, hfe.key_eq]
      exact Nat.add_le_add (ih ht) (le_refl _)

lemma matches_evol {g g' : DBGame} (r : RemoteGame) (h : FieldEvol g g') :
    matches_conditions r g' = matches_conditions r g := by
  unfold matches_conditions
  rw [h.slug_eq, h.runner_eq, h.platform_eq, h.service_eq]

lemma matches_of_key {g : DBGame} {r : RemoteGame} (h : dbKey g = remoteKey r) :
    matches_conditions r g = true := by
  simp only [dbKey, remoteKey, Prod.mk.injEq] at h
  obtain ⟨h1, h2, h3, h4⟩ := h
  simp [matches_conditions, h1, h2, h3, h4]

lemma evolves_query_le {r : RemoteGame} {a : List DBGame} :
    ∀ {b : List DBGame}, Evolves a b →
      (get_games_where a r).length ≤ (get_games_where b r).length := by
  induction a with
  | nil => intro b _; simp [get_games_where]
  | cons g t ih =>
    intro b h
    cases b with
    | nil => exact h.elim
    | cons g' t' =>
      obtain ⟨hfe, ht⟩ := h
      unfold get_games_where
      rw [List.filter_cons, List.filter_cons, matches_evol r hfe]
      cases hmc : matches_conditions r g
      · simpa using ih ht
      · simpa using Nat.succ_le_succ (ih ht)

/-! ## The library sets in terms of the database -/

/-- The encoding of a library with `since = None` keeps every row. -/
lemma db_games_to_api_none (s : Syncer) (db : List DBGame) :
    db_games_to_api s db none = db.map (db_game_to_api s) := by
  induction db with
  | nil => rfl
  | cons g rest ih => simp [db_games_to_api, ih]

/-- The sets built over the full local library of a database (lines 58–59
and 75–90 composed). -/
def mk_sets (s : Syncer) (db : List DBGame) : LibSets :=
  build_sets (db_games_to_api s db none) emptySets

lemma lib_keys_eq (s : Syncer) (db : List DBGame) :
    (db_games_to_api s db none).map apiKey = db.map dbKey := by
  rw [db_games_to_api_none, List.map_map]
  rfl

lemma lib_slugs_eq (s : Syncer) (db : List DBGame) :
    (db_games_to_api s db none).map ApiGame.slug = db.map DBGame.slug := by
  rw [db_games_to_api_none, List.map_map]
  rfl

lemma mk_sets_dups (s : Syncer) (db : List DBGame) (k : GameKey) :
    k ∈ (mk_sets s db).duplicate_keys ↔ 2 ≤ (db.map dbKey).count k := by
  rw [mk_sets, build_sets_dups_empty, lib_keys_eq]

lemma mk_sets_map_keys (s : Syncer) (db : List DBGame) (k : GameKey) :
    k ∈ (mk_sets s db).library_map.map Prod.fst ↔ k ∈ db.map dbKey := by
  rw [mk_sets, build_sets_map_keys_empty, lib_keys_eq]

lemma mk_sets_slugs (s : Syncer) (db : List DBGame) (sl : String) :
    sl ∈ (mk_sets s db).library_slugs ↔ sl ∈ db.map DBGame.slug := by
  rw [mk_sets, build_sets_slugs_empty, lib_slugs_eq]

/-- Uniqueness of rows by primary key. -/
lemma eq_of_mem_of_id_eq {db : List DBGame} (hnd : (db.map DBGame.id).Nodup)
    {a b : DBGame} (ha : a ∈ db) (hb : b ∈ db) (hid : a.id = b.id) : a = b := by
  induction db with
  | nil => cases ha
  | cons g t ih =>
    rw [List.map_cons, List.nodup_cons] at hnd
    rcases List.mem_cons.mp ha with rfl | ha' <;> rcases List.mem_cons.mp hb with rfl | hb'
    · rfl
    · exact absurd (hid.symm ▸ List.mem_map_of_mem DBGame.id hb') hnd.1
    · exact absurd (hid ▸ List.mem_map_of_mem DBGame.id ha') hnd.1
    · exact ih hnd.2 ha' hb'

/-- Exhaustive description of one merge iteration: each disjunct records the
branch taken, the conditions that selected it, and the resulting state. -/
lemma process_remote_cases (sets : LibSets) (st : MergeState) (r : RemoteGame)
    (hnd : (st.db.map DBGame.id).Nodup) :
    (remoteKey r ∈ sets.duplicate_keys ∧ process_remote sets st r = st) ∨
    (remoteKey r ∈ sets.library_map.map Prod.fst ∧ get_games_where st.db r = [] ∧
      process_remote sets st r = st) ∨
    (2 ≤ (get_games_where st.db r).length ∧ process_remote sets st r = st) ∨
    (∃ game, game ∈ st.db ∧ get_games_where st.db r = [game] ∧
      r.playtime ≤ game.playtime ∧ r.lastplayed ≤ game.lastplayed ∧
      process_remote sets st r = st) ∨
    (∃ game merged, game ∈ st.db ∧ get_games_where st.db r = [game] ∧
      remoteKey r ∈ sets.library_map.map Prod.fst ∧
      remoteKey r ∉ sets.duplicate_keys ∧
      (game.playtime < r.playtime ∨ game.lastplayed < r.lastplayed) ∧
      merged.id = game.id ∧ FieldEvol game merged ∧
      r.playtime ≤ merged.playtime ∧ r.lastplayed ≤ merged.lastplayed ∧
      process_remote sets st r =
        { st with db := save_game st.db merged
                  any_local_changes := true
                  ops := st.ops ++ [Op.update (remoteKey r) merged.id] }) ∨
    (remoteKey r ∉ sets.library_map.map Prod.fst ∧ r.slug ∈ sets.library_slugs ∧
      process_remote sets st r = st) ∨
    (remoteKey r ∉ sets.library_map.map Prod.fst ∧ r.slug ∉ sets.library_slugs ∧
      remoteKey r ∉ sets.duplicate_keys ∧
      process_remote sets st r =
        { db := st.db ++ [add_game_record st.next_id r]
          next_id := st.next_id + 1
          any_local_changes := true
          ops := st.ops ++ [Op.insert (remoteKey r) r.slug st.next_id] }) := by
  by_cases hd : remoteKey r ∈ sets.duplicate_keys
  · exact Or.inl ⟨hd, by simp only [process_remote, if_pos hd]⟩
  · by_cases hm : remoteKey r ∈ sets.library_map.map Prod.fst
    · rcases hq : get_games_where st.db r with _ | ⟨pga, rest⟩
      · refine Or.inr (Or.inl ⟨hm, rfl, ?_⟩)
        simp only [process_remote, if_neg hd, if_pos hm, hq]
      · rcases rest with _ | ⟨g2, rest2⟩
        · have hpga_mem : pga ∈ st.db := by
            have h0 : pga ∈ get_games_where st.db r := by
              rw [hq]; exact List.mem_singleton_self _
            exact (List.mem_filter.mp h0).1
          have hgid : gameById st.db pga.id = some pga := gameById_eq_of_nodup hnd hpga_mem
          by_cases hp : pga.playtime < r.playtime
          · by_cases hl : pga.lastplayed < r.lastplayed
            · refine Or.inr (Or.inr (Or.inr (Or.inr (Or.inl
                ⟨pga, { pga with playtime := r.playtime, lastplayed := r.lastplayed },
                  hpga_mem, rfl, hm, hd, Or.inl hp, rfl, ?_, le_refl _, le_refl _, ?_⟩))))
              · exact { id_eq := rfl, name_eq := rfl, slug_eq := rfl, runner_eq := rfl
                        platform_eq := rfl, service_eq := rfl, service_id_eq := rfl
                        installed_eq := rfl, installed_at_eq := rfl
                        playtime_le := hp.le, lastplayed_le := hl.le }
              · simp only [process_remote, if_neg hd, if_pos hm, hq, hgid, if_pos hp,
                  if_pos hl, if_true]
            · refine Or.inr (Or.inr (Or.inr (Or.inr (Or.inl
                ⟨pga, { pga with playtime := r.playtime },
                  hpga_mem, rfl, hm, hd, Or.inl hp, rfl, ?_, le_refl _, not_lt.mp hl, ?_⟩))))
              · exact { id_eq := rfl, name_eq := rfl, slug_eq := rfl, runner_eq := rfl
                        platform_eq := rfl, service_eq := rfl, service_id_eq := rfl
                        installed_eq := rfl, installed_at_eq := rfl
                        playtime_le := hp.le, lastplayed_le := le_refl _ }
              · simp only [process_remote, if_neg hd, if_pos hm, hq, hgid, if_pos hp,
                  if_neg hl, if_true]
          · by_cases hl : pga.lastplayed < r.lastplayed
            · refine Or.inr (Or.inr (Or.inr (Or.inr (Or.inl
                ⟨pga, { pga with lastplayed := r.lastplayed },
                  hpga_mem, rfl, hm, hd, Or.inr hl, rfl, ?_, not_lt.mp hp, le_refl _, ?_⟩))))
              · exact { id_eq := rfl, name_eq := rfl, slug_eq := rfl, runner_eq := rfl
                        platform_eq := rfl, service_eq := rfl, service_id_eq := rfl
                        installed_eq := rfl, installed_at_eq := rfl
                        playtime_le := le_refl _, lastplayed_le := hl.le }
              · simp only [process_remote, if_neg hd, if_pos hm, hq, hgid, if_neg hp,
                  if_pos hl, if_true]
            · refine Or.inr (Or.inr (Or.inr (Or.inl
                ⟨pga, hpga_mem, rfl, not_lt.mp hp, not_lt.mp hl, ?_⟩)))
              simp only [process_remote, if_neg hd, if_pos hm, hq, hgid, if_neg hp,
                if_neg hl, Bool.false_eq_true, if_false]
        · refine Or.inr (Or.inr (Or.inl ⟨by simp only [List.length_cons]; omega, ?_⟩))
          simp only [process_remote, if_neg hd, if_pos hm, hq]
    · by_cases hs : r.slug ∈ sets.library_slugs
      · refine Or.inr (Or.inr (Or.inr (Or.inr (Or.inr (Or.inl ⟨hm, hs, ?_⟩)))))
        simp only [process_remote, if_neg hd, if_neg hm, if_pos hs]
      · refine Or.inr (Or.inr (Or.inr (Or.inr (Or.inr (Or.inr ⟨hm, hs, hd, ?_⟩)))))
        simp only [process_remote, if_neg hd, if_neg hm, if_neg hs]

lemma save_game_ids (db : List DBGame) (g' : DBGame) :
    (save_game db g').map DBGame.id = db.map DBGame.id := by
  induction db with
  | nil => rfl
  | cons g t ih =>
    simp only [save_game, List.map_cons] at ih ⊢
    rw [ih]
    congr 1
    by_cases h : g.id = g'.id <;> simp [h]

lemma evolves_save_game {db : List DBGame} {game merged : DBGame}
    (hnd : (db.map DBGame.id).Nodup) (hmem : game ∈ db) (hid : merged.id = game.id)
    (hfe : FieldEvol game merged) : Evolves db (save_game db merged) := by
  apply evolves_map
  intro g hg
  by_cases h : g.id = merged.id
  · have hg_eq : g = game := eq_of_mem_of_id_eq hnd hg hmem (h.trans hid)
    subst hg_eq
    simpa [h] using hfe
  · simp only [h, beq_iff_eq, if_neg h]
    exact FieldEvol.refl g

/-- Per-step database evolution of the merge loop. -/
lemma process_remote_evolves (sets : LibSets) (st : MergeState) (r : RemoteGame)
    (hnd : (st.db.map DBGame.id).Nodup) :
    Evolves st.db (process_remote sets st r).db := by
  rcases process_remote_cases sets st r hnd with
    ⟨_, he⟩ | ⟨_, _, he⟩ | ⟨_, he⟩ | ⟨g, _, _, _, _, he⟩ |
    ⟨game, merged, hmem, _, _, _, _, hid, hfe, _, _, he⟩ | ⟨_, _, he⟩ | ⟨_, _, _, he⟩
  · rw [he]; exact evolves_refl _
  · rw [he]; exact evolves_refl _
  · rw [he]; exact evolves_refl _
  · rw [he]; exact evolves_refl _
  · rw [he]; exact evolves_save_game hnd hmem hid hfe
  · rw [he]; exact evolves_refl _
  · rw [he]; exact evolves_append_right _ (evolves_refl _)

/-- Invariant carried by the merge loop of a pass that started on database
`db0`: the database evolves from `db0`, every row either descends from a
`db0` row or was inserted with a slug foreign to `db0`, ids stay distinct
and below the autoincrement counter. -/
structure PassInv (db0 : List DBGame) (st : MergeState) : Prop where
  evol : Evolves db0 st.db
  fresh : ∀ g ∈ st.db, (∃ g0 ∈ db0, FieldEvol g0 g) ∨ g.slug ∉ db0.map DBGame.slug
  nodup : (st.db.map DBGame.id).Nodup
  bound : ∀ i ∈ st.db.map DBGame.id, i < st.next_id

lemma process_remote_inv (s : Syncer) (db0 : List DBGame) (st : MergeState)
    (r : RemoteGame) (hinv : PassInv db0 st) :
    PassInv db0 (process_remote (mk_sets s db0) st r) := by
  rcases process_remote_cases (mk_sets s db0) st r hinv.nodup with
    ⟨_, he⟩ | ⟨_, _, he⟩ | ⟨_, he⟩ | ⟨g, _, _, _, _, he⟩ |
    ⟨game, merged, hmem, _, _, _, _, hid, hfe, _, _, he⟩ | ⟨_, _, he⟩ |
    ⟨_, hslug, _, he⟩
  · rw [he]; exact hinv
  · rw [he]; exact hinv
  · rw [he]; exact hinv
  · rw [he]; exact hinv
  · rw [he]
    refine ⟨evolves_trans hinv.evol (evolves_save_game hinv.nodup hmem hid hfe), ?_, ?_, ?_⟩
    · intro g' hg'
      obtain ⟨g, hg, hfg⟩ := List.mem_map.mp hg'
      by_cases h : g.id = merged.id
      · have : g' = merged := by rw [← hfg]; simp [h]
        subst this
        rcases hinv.fresh game hmem with ⟨g0, hg0, hfe0⟩ | hsl
        · exact Or.inl ⟨g0, hg0, hfe0.trans hfe⟩
        · right
          rw [hfe.slug_eq]
          exact hsl
      · have : g' = g := by rw [← hfg]; simp [h]
        subst this
        exact hinv.fresh _ hg
    · show ((save_game st.db merged).map DBGame.id).Nodup
      rw [save_game_ids]
      exact hinv.nodup
    · show ∀ i ∈ (save_game st.db merged).map DBGame.id, i < st.next_id
      rw [save_game_ids]
      exact hinv.bound
  · rw [he]; exact hinv
  · rw [he]
    refine ⟨evolves_append_right _ hinv.evol, ?_, ?_, ?_⟩
    · intro g hg
      rcases List.mem_append.mp hg with hg' | hg'
      · exact hinv.fresh g hg'
      · right
        rw [List.mem_singleton.mp hg']
        show r.slug ∉ db0.map DBGame.slug
        rw [← mk_sets_slugs s db0]
        exact hslug
    · show ((st.db ++ [add_game_record st.next_id r]).map DBGame.id).Nodup
      rw [List.map_append]
      rw [List.nodup_append]
      refine ⟨hinv.nodup, List.nodup_singleton _, ?_⟩
      intro i hi hi'
      have h1 := hinv.bound i hi
      have h2 : i = st.next_id := by simpa [add_game_record] using hi'
      omega
    · show ∀ i ∈ (st.db ++ [add_game_record st.next_id r]).map DBGame.id,
        i < st.next_id + 1
      rw [List.map_append]
      intro i hi
      rcases List.mem_append.mp hi with hi' | hi'
      · exact Nat.lt_succ_of_lt (hinv.bound i hi')
      · have : i = st.next_id := by simpa [add_game_record] using hi'
        omega

/-- A remote entry is settled with respect to the snapshot database `db0`
and the current database `db` when re-processing it against `db` can only
skip: its key is locally duplicated, or the re-query is ambiguous, or a
matching row already dominates its fields, or it was skipped by slug. -/
def EntrySettled (db0 db : List DBGame) (r : RemoteGame) : Prop :=
  2 ≤ (db0.map dbKey).count (remoteKey r) ∨
  2 ≤ (get_games_where db r).length ∨
  (∃ g ∈ db, matches_conditions r g = true ∧ r.playtime ≤ g.playtime ∧
    r.lastplayed ≤ g.lastplayed) ∨
  (remoteKey r ∉ db0.map dbKey ∧ r.slug ∈ db0.map DBGame.slug)

/-- Settledness survives database evolution. -/
lemma settled_mono (db0 : List DBGame) {a b : List DBGame} (r : RemoteGame)
    (hev : Evolves a b) (h : EntrySettled db0 a r) : EntrySettled db0 b r := by
  rcases h with h | h | ⟨g, hg, hm, hp, hl⟩ | h
  · exact Or.inl h
  · exact Or.inr (Or.inl (le_trans h (evolves_query_le hev)))
  · obtain ⟨g', hg', hfe⟩ := evolves_mem hev hg
    refine Or.inr (Or.inr (Or.inl ⟨g', hg', ?_, le_trans hp hfe.playtime_le,
      le_trans hl hfe.lastplayed_le⟩))
    rw [matches_evol r hfe]
    exact hm
  · exact Or.inr (Or.inr (Or.inr h))

/-- Processing an entry in pass one leaves it settled. -/
lemma process_remote_establishes (s : Syncer) (db0 : List DBGame)
    (st : MergeState) (r : RemoteGame) (hinv : PassInv db0 st) :
    EntrySettled db0 (process_remote (mk_sets s db0) st r).db r := by
  rcases process_remote_cases (mk_sets s db0) st r hinv.nodup with
    ⟨hdup, he⟩ | ⟨hmap, hq, he⟩ | ⟨hlen, he⟩ | ⟨game, hmem, hq, hp, hl, he⟩ |
    ⟨game, merged, hmem, hq, _, _, _, hid, hfe, hp, hl, he⟩ | ⟨hmap, hslug, he⟩ |
    ⟨hmap, hslug, _, he⟩
  · rw [he]
    exact Or.inl ((mk_sets_dups s db0 _).mp hdup)
  · exfalso
    rw [mk_sets_map_keys] at hmap
    obtain ⟨w, hw, hkey⟩ := List.mem_map.mp hmap
    obtain ⟨w', hw', hfew⟩ := evolves_mem hinv.evol hw
    have hmw : matches_conditions r w' = true := by
      rw [matches_evol r hfew]
      exact matches_of_key hkey
    have : w' ∈ get_games_where st.db r := List.mem_filter.mpr ⟨hw', hmw⟩
    rw [hq] at this
    cases this
  · rw [he]
    exact Or.inr (Or.inl hlen)
  · rw [he]
    have hgm : game ∈ get_games_where st.db r := by
      rw [hq]; exact List.mem_singleton_self _
    exact Or.inr (Or.inr (Or.inl ⟨game, hmem, (List.mem_filter.mp hgm).2, hp, hl⟩))
  · rw [he]
    have hgm : game ∈ get_games_where st.db r := by
      rw [hq]; exact List.mem_singleton_self _
    refine Or.inr (Or.inr (Or.inl ⟨merged, ?_, ?_, hp, hl⟩))
    · exact mem_save_game hmem hid
    · rw [matches_evol r hfe]
      exact (List.mem_filter.mp hgm).2
  · rw [he]
    refine Or.inr (Or.inr (Or.inr ⟨?_, ?_⟩))
    · rw [← mk_sets_map_keys s db0]
      exact hmap
    · rw [← mk_sets_slugs s db0]
      exact hslug
  · rw [he]
    refine Or.inr (Or.inr (Or.inl ⟨add_game_record st.next_id r, ?_, ?_, le_refl _, le_refl _⟩))
    · exact List.mem_append_right _ (List.mem_singleton_self _)
    · exact matches_of_key rfl

/-- Pass one preserves the invariant and settles every processed entry. -/
lemma run_merge_inv_settles (s : Syncer) (db0 : List DBGame) :
    ∀ (response : List RemoteGame) (st : MergeState), PassInv db0 st →
      PassInv db0 (run_merge (mk_sets s db0) st response) ∧
      (∀ r, EntrySettled db0 st.db r →
        EntrySettled db0 (run_merge (mk_sets s db0) st response).db r) ∧
      ∀ r ∈ response, EntrySettled db0 (run_merge (mk_sets s db0) st response).db r
  | [], st => fun hinv => ⟨hinv, fun _ h => h, by intro r hr; cases hr⟩
  | r0 :: rest, st => fun hinv => by
    have hstep : run_merge (mk_sets s db0) st (r0 :: rest) =
        run_merge (mk_sets s db0) (process_remote (mk_sets s db0) st r0) rest := rfl
    have hinv' := process_remote_inv s db0 st r0 hinv
    obtain ⟨i1, i2, i3⟩ := run_merge_inv_settles s db0 rest _ hinv'
    rw [hstep]
    refine ⟨i1, ?_, ?_⟩
    · intro r hr
      exact i2 r (settled_mono db0 r (process_remote_evolves _ st r0 hinv.nodup) hr)
    · intro r hr
      rcases List.mem_cons.mp hr with rfl | hr'
      · exact i2 r (process_remote_establishes s db0 st r hinv)
      · exact i3 r hr'

lemma slug_eq_of_matches {g : DBGame} {r : RemoteGame}
    (h : matches_conditions r g = true) : g.slug = r.slug := by
  unfold matches_conditions at h
  simp only [Bool.and_eq_true, beq_iff_eq] at h
  exact h.1.1.1

lemma exists_match_of_query_pos {db : List DBGame} {r : RemoteGame}
    (h : 0 < (get_games_where db r).length) :
    ∃ g ∈ db, matches_conditions r g = true := by
  obtain ⟨g, hg⟩ := List.exists_mem_of_length_pos h
  have := List.mem_filter.mp hg
  exact ⟨g, this.1, this.2⟩

/-- Against a database in which it is settled, an entry is a no-op. -/
lemma process_remote_noop (s : Syncer) (db0 : List DBGame) (st : MergeState)
    (r : RemoteGame)
    (hev : Evolves db0 st.db)
    (hfresh : ∀ g ∈ st.db, (∃ g0 ∈ db0, FieldEvol g0 g) ∨ g.slug ∉ db0.map DBGame.slug)
    (hnd : (st.db.map DBGame.id).Nodup)
    (hset : EntrySettled db0 st.db r) :
    process_remote (mk_sets s st.db) st r = st := by
  rcases process_remote_cases (mk_sets s st.db) st r hnd with
    ⟨_, he⟩ | ⟨_, _, he⟩ | ⟨_, he⟩ | ⟨g, _, _, _, _, he⟩ |
    ⟨game, merged, hmem, hq, hmap, hdup, hstrict, hid, hfe, _, _, he⟩ |
    ⟨_, _, he⟩ | ⟨hmap, hslug, hdup2, he⟩
  · exact he
  · exact he
  · exact he
  · exact he
  · exfalso
    rcases hset with h | h | ⟨w, hw, hmw, hpw, hlw⟩ | ⟨hk0, hsl0⟩
    · exact hdup ((mk_sets_dups s st.db _).mpr
        (le_trans h (evolves_count_key _ hev)))
    · rw [hq] at h
      simp at h
    · have hwq : w ∈ get_games_where st.db r := List.mem_filter.mpr ⟨hw, hmw⟩
      rw [hq, List.mem_singleton] at hwq
      subst hwq
      rcases hstrict with h | h
      · exact absurd hpw (not_le.mpr h)
      · exact absurd hlw (not_le.mpr h)
    · rw [mk_sets_map_keys] at hmap
      obtain ⟨g, hg, hkey⟩ := List.mem_map.mp hmap
      rcases hfresh g hg with ⟨g0, hg0, hfe0⟩ | hsl
      · refine hk0 (List.mem_map.mpr ⟨g0, hg0, ?_⟩)
        rw [← hfe0.key_eq]
        exact hkey
      · apply hsl
        have hgs : g.slug = r.slug := by
          have := congrArg Prod.fst hkey
          simpa [dbKey, remoteKey] using this
        rw [hgs]
        exact hsl0
  · exact he
  · exfalso
    rcases hset with h | h | ⟨w, hw, hmw, _, _⟩ | ⟨_, hsl0⟩
    · apply hmap
      rw [mk_sets_map_keys, ← List.count_pos_iff]
      have := evolves_count_key (remoteKey r) hev
      omega
    · obtain ⟨w, hw, hmw⟩ := @exists_match_of_query_pos st.db r (by omega)
      exact hslug ((mk_sets_slugs s st.db _).mpr
        (List.mem_map.mpr ⟨w, hw, slug_eq_of_matches hmw⟩))
    · exact hslug ((mk_sets_slugs s st.db _).mpr
        (List.mem_map.mpr ⟨w, hw, slug_eq_of_matches hmw⟩))
    · apply hslug
      rw [mk_sets_slugs]
      obtain ⟨w0, hw0, hslw⟩ := List.mem_map.mp hsl0
      obtain ⟨w', hw', hfew⟩ := evolves_mem hev hw0
      exact List.mem_map.mpr ⟨w', hw', by rw [hfew.slug_eq, hslw]⟩

/-- A whole second pass over settled entries does nothing. -/
lemma run_merge_noop (s : Syncer) (db0 : List DBGame) :
    ∀ (response : List RemoteGame) (st : MergeState),
      Evolves db0 st.db →
      (∀ g ∈ st.db, (∃ g0 ∈ db0, FieldEvol g0 g) ∨ g.slug ∉ db0.map DBGame.slug) →
      (st.db.map DBGame.id).Nodup →
      (∀ r ∈ response, EntrySettled db0 st.db r) →
      run_merge (mk_sets s st.db) st response = st
  | [], st => fun _ _ _ _ => rfl
  | r0 :: rest, st => fun hev hfresh hnd hall => by
    have h0 : process_remote (mk_sets s st.db) st r0 = st :=
      process_remote_noop s db0 st r0 hev hfresh hnd (hall r0 (List.mem_cons_self _ _))
    have hstep : run_merge (mk_sets s st.db) st (r0 :: rest) =
        run_merge (mk_sets s st.db) (process_remote (mk_sets s st.db) st r0) rest := rfl
    rw [hstep, h0]
    exact run_merge_noop s db0 rest st hev hfresh hnd
      (fun r hr => hall r (List.mem_cons_of_mem _ hr))

/-- The outcome of a fully successful pass, as one equation. -/
lemma sync_main_eq (s : Syncer) (force : Bool) (inp : SyncInput) (st : SyncState)
    (h1 : st.syncing = false) (h2 : inp.has_credentials = true)
    (h3 : inp.post_ok = true) :
    sync_local_library s force inp st =
      ⟨(run_merge (mk_sets s st.db) ⟨st.db, st.next_id, false, []⟩ inp.remote_response).db,
       (run_merge (mk_sets s st.db) ⟨st.db, st.next_id, false, []⟩ inp.remote_response).next_id,
       some inp.now, false, true, true,
       (run_merge (mk_sets s st.db) ⟨st.db, st.next_id, false, []⟩ inp.remote_response).any_local_changes,
       some (db_games_to_api s st.db
         (if !force && st.checkpoint.isSome then st.checkpoint else none)),
       (run_merge (mk_sets s st.db) ⟨st.db, st.next_id, false, []⟩ inp.remote_response).ops⟩ := by
  simp [sync_local_library, h1, h2, h3, mk_sets]

/-- C4: a second pass immediately after a first one, with the same remote
response and no intervening changes, performs no updates or inserts and does
not fire the "data updated" event.  The two hypotheses are the database
primary-key invariants. -/
theorem C4_idempotent_second_pass (s : Syncer) (f1 f2 : Bool) (inp : SyncInput)
    (st0 : SyncState)
    (hnd : (st0.db.map DBGame.id).Nodup)
    (hbound : ∀ i ∈ st0.db.map DBGame.id, i < st0.next_id) :
    (sync_local_library s f2 inp
      ⟨(sync_local_library s f1 inp st0).db, (sync_local_library s f1 inp st0).next_id,
       (sync_local_library s f1 inp st0).checkpoint,
       (sync_local_library s f1 inp st0).syncing⟩).ops = [] ∧
    (sync_local_library s f2 inp
      ⟨(sync_local_library s f1 inp st0).db, (sync_local_library s f1 inp st0).next_id,
       (sync_local_library s f1 inp st0).checkpoint,
       (sync_local_library s f1 inp st0).syncing⟩).updated_fired = false := by
  by_cases h1 : st0.syncing
  · constructor <;> simp [sync_local_library, h1]
  · by_cases h2 : inp.has_credentials
    · by_cases h3 : inp.post_ok
      · have h1' : st0.syncing = false := by simpa using h1
        have e1 := sync_main_eq s f1 inp st0 h1' h2 h3
        rw [e1]
        have e2 := sync_main_eq s f2 inp
          ⟨(run_merge (mk_sets s st0.db) ⟨st0.db, st0.next_id, false, []⟩
              inp.remote_response).db,
           (run_merge (mk_sets s st0.db) ⟨st0.db, st0.next_id, false, []⟩
              inp.remote_response).next_id,
           some inp.now, false⟩ rfl h2 h3
        rw [e2]
        have inv0 : PassInv st0.db ⟨st0.db, st0.next_id, false, []⟩ :=
          ⟨evolves_refl _, fun g hg => Or.inl ⟨g, hg, FieldEvol.refl g⟩, hnd, hbound⟩
        obtain ⟨i1, _, i3⟩ :=
          run_merge_inv_settles s st0.db inp.remote_response _ inv0
        have hnoop := run_merge_noop s st0.db inp.remote_response
          ⟨(run_merge (mk_sets s st0.db) ⟨st0.db, st0.next_id, false, []⟩
              inp.remote_response).db,
           (run_merge (mk_sets s st0.db) ⟨st0.db, st0.next_id, false, []⟩
              inp.remote_response).next_id, false, []⟩
          i1.evol i1.fresh i1.nodup i3
        dsimp only
        rw [hnoop]
        exact ⟨rfl, rfl⟩
      · constructor <;> simp [sync_local_library, h1, h2, h3]
    · constructor <;> simp [sync_local_library, h1, h2]

/-- Witness for C4 at a concrete input where the first pass performs both an
update and an insert. -/
theorem C4_idempotent_second_pass_witness :
    ((([c1Local] : List DBGame).map DBGame.id).Nodup ∧
      (∀ i ∈ ([c1Local] : List DBGame).map DBGame.id, i < 2)) ∧
    (sync_local_library testSyncer false ⟨true, true, [c1Remote, c10Remote1], 77⟩
      ⟨(sync_local_library testSyncer false ⟨true, true, [c1Remote, c10Remote1], 77⟩
          ⟨[c1Local], 2, none, false⟩).db,
       (sync_local_library testSyncer false ⟨true, true, [c1Remote, c10Remote1], 77⟩
          ⟨[c1Local], 2, none, false⟩).next_id,
       (sync_local_library testSyncer false ⟨true, true, [c1Remote, c10Remote1], 77⟩
          ⟨[c1Local], 2, none, false⟩).checkpoint,
       (sync_local_library testSyncer false ⟨true, true, [c1Remote, c10Remote1], 77⟩
          ⟨[c1Local], 2, none, false⟩).syncing⟩).ops = [] ∧
    (sync_local_library testSyncer false ⟨true, true, [c1Remote, c10Remote1], 77⟩
      ⟨(sync_local_library testSyncer false ⟨true, true, [c1Remote, c10Remote1], 77⟩
          ⟨[c1Local], 2, none, false⟩).db,
       (sync_local_library testSyncer false ⟨true, true, [c1Remote, c10Remote1], 77⟩
          ⟨[c1Local], 2, none, false⟩).next_id,
       (sync_local_library testSyncer false ⟨true, true, [c1Remote, c10Remote1], 77⟩
          ⟨[c1Local], 2, none, false⟩).checkpoint,
       (sync_local_library testSyncer false ⟨true, true, [c1Remote, c10Remote1], 77⟩
          ⟨[c1Local], 2, none, false⟩).syncing⟩).updated_fired = false := by
  refine ⟨⟨by decide, by decide⟩, ?_, ?_⟩
  · exact (C4_idempotent_second_pass testSyncer false false
      ⟨true, true, [c1Remote, c10Remote1], 77⟩ ⟨[c1Local], 2, none, false⟩
      (by decide) (by decide)).1
  · exact (C4_idempotent_second_pass testSyncer false false
      ⟨true, true, [c1Remote, c10Remote1], 77⟩ ⟨[c1Local], 2, none, false⟩
      (by decide) (by decide)).2
